import Mathlib

/-!
Verification of the voter-shield pipeline (`voter-shield/`).

Shallow embedding of the pure computational content of:
- `crop_voters.py` (language detection from the filename),
- `pdf_to_png.py` (page classification),
- `ocr_extract.py` (required OCR language sets, serial-number assignment),
- `quality_flags.py` (record quality flags),
- `write_csv.py` (output column ordering),
- `run_state.py` (persistent run-state snapshots, modelled as file-operation
  traces),
- the driver loop of `main.py` (integrity events, strict mode, per-document
  failure handling).

File-system effects are modelled as explicit traces of `FsOp` values;
nondeterministic inputs (timestamps, the set of installed OCR languages,
existence of files on disk) are passed as explicit parameters.
-/

namespace VoterShield

/-- Python's `pat in s` substring test, on the character lists of the two
strings (`pat.data <:+: s.data`). -/
def strContains (s pat : String) : Bool := decide (pat.data <:+: s.data)

/-- Python's `str.upper()` restricted to ASCII case mapping, as the uppercased
character list of the string. -/
def upperChars (s : String) : List Char := s.data.map Char.toUpper

/-- Python's `range(a, b)` as a list. -/
def rangePy (a b : Nat) : List Nat := List.range' a (b - a)

/-! ## crop_voters.py -/

/-- `crop_voters.detect_ocr_language_from_filename`: uppercase the filename,
return `"tam+eng"` if it contains `-TAM-`, else `"eng"` (both for an `-ENG-`
match and for the default). -/
def detect_ocr_language_from_filename (filename : String) : String :=
  let fname : List Char := upperChars filename
  if "-TAM-".data <:+: fname then "tam+eng"
  else if "-ENG-".data <:+: fname then "eng"
  else "eng"

/-! ## pdf_to_png.py -/

/-- `pdf_to_png.ENG_START_PAGE` (cover pages: 1..2). -/
def ENG_START_PAGE : Nat := 3

/-- `pdf_to_png.TAM_START_PAGE` (cover pages: 1..3). -/
def TAM_START_PAGE : Nat := 4

/-- The page classification computed by `pdf_to_png.convert_pdf_to_jpgs`:
which physical page numbers become cover images, voter-grid images
(renumbered from 1) and the summary image. -/
structure PageClassification where
  lang : String
  voter_start_page : Nat
  cover_pages : List Nat
  voter_page_nos : List Nat
  summary_page : Option Nat
  deriving Repr, DecidableEq

/-- The classification logic of `pdf_to_png.convert_pdf_to_jpgs` (lines
109-127): `voter_start_page = TAM_START_PAGE if "tam+eng" in lang else
ENG_START_PAGE`; `cover_pages = range(1, min(voter_start_page,
pages_total+1))`; `summary_page = pages_total if pages_total >=
voter_start_page else None`; `voter_page_nos = range(voter_start_page,
pages_total) if pages_total > voter_start_page else []`. -/
def convert_pdf_to_jpgs (pdf_name : String) (pages_total : Nat) :
    PageClassification :=
  let lang := detect_ocr_language_from_filename pdf_name
  let voter_start_page :=
    if strContains lang "tam+eng" then TAM_START_PAGE else ENG_START_PAGE
  { lang := lang
    voter_start_page := voter_start_page
    cover_pages := rangePy 1 (min voter_start_page (pages_total + 1))
    voter_page_nos :=
      if pages_total > voter_start_page then rangePy voter_start_page pages_total
      else []
    summary_page := if pages_total ≥ voter_start_page then some pages_total else none }

/-- The voter-grid pages renumbered from 1, as written by the
`enumerate(voter_page_nos, start=1)` loop: pairs `(new_no, physical_page)`. -/
def voterPagesRenumbered (c : PageClassification) : List (Nat × Nat) :=
  List.enumFrom 1 c.voter_page_nos

/-- Number of pages classified as covers. -/
def coverCount (c : PageClassification) : Nat := c.cover_pages.length

/-- Number of pages classified as summary (0 or 1). -/
def summaryCount (c : PageClassification) : Nat :=
  match c.summary_page with
  | none => 0
  | some _ => 1

/-- Number of pages classified as voter-grid pages. -/
def voterGridCount (c : PageClassification) : Nat := c.voter_page_nos.length

/-! ## ocr_extract.py: required language packs -/

/-- Python `set.add` on a list model of a set: append the element if absent. -/
def insertLang (lang : String) (acc : List String) : List String :=
  if lang ∈ acc then acc else acc ++ [lang]

/-- The `required` language set computed by `ocr_extract.ocr_images_for_pdf`
(lines 186-191) from the per-job languages: a `"tam+eng"` job contributes
`{"tam", "eng"}`, an `"eng"` job contributes `{"eng"}`. -/
def requiredLangs (jobLangs : List String) : List String :=
  jobLangs.foldl
    (fun acc lang =>
      if lang = "tam+eng" then insertLang "tam" (insertLang "eng" acc)
      else if lang = "eng" then insertLang "eng" acc
      else acc)
    []

/-- `required` for a list of image files, each job's language coming from
`detect_ocr_language_from_filename` on the image name (lines 142-184). -/
def requiredLangsForImages (imageNames : List String) : List String :=
  requiredLangs (imageNames.map detect_ocr_language_from_filename)

/-- `missing = sorted(required - installed)` of `ocr_images_for_pdf`
(line 194). -/
def missingLangs (imageNames installed : List String) : List String :=
  List.insertionSort (· ≤ ·)
    ((requiredLangsForImages imageNames).filter (fun l => decide (l ∉ installed)))

/-- The fatal language check of `ocr_images_for_pdf` (lines 193-202): raise a
`RuntimeError` when any required language pack is not installed. -/
def ocrLanguageCheck (imageNames installed : List String) : Except String Unit :=
  let missing := missingLangs imageNames installed
  if missing.isEmpty then Except.ok ()
  else
    Except.error
      ("Tesseract language data missing: " ++ String.intercalate ", " missing ++
        ". Install the missing languages or place the traineddata files into tessdata.")

/-! ## ocr_extract.py: serial-number assignment -/

/-- A record as consumed by `ocr_extract.assign_serial_numbers`: only the
`doc_id` and `page_no` fields are read; `serial_no` is added. -/
structure RecIn where
  doc_id : String
  page_no : Nat
  deriving Repr, DecidableEq

/-- A record after serial-number assignment. -/
structure RecOut where
  doc_id : String
  page_no : Nat
  serial_no : Nat
  deriving Repr, DecidableEq

/-- The key of `voters.sort(key=lambda x: (x["page_no"]))`. -/
def lePage (a b : RecIn) : Prop := a.page_no ≤ b.page_no

instance : DecidableRel lePage := fun a b =>
  inferInstanceAs (Decidable (a.page_no ≤ b.page_no))

instance : IsTotal RecIn lePage := ⟨fun a b => Nat.le_total a.page_no b.page_no⟩

instance : IsTrans RecIn lePage := ⟨fun _ _ _ h h' => Nat.le_trans h h'⟩

/-- The key of `final.sort(key=lambda x: (x["doc_id"], x["serial_no"]))`:
lexicographic order on the pair; strings compare by their code-point lists,
as in Python. -/
def leDocSerial (a b : RecOut) : Prop :=
  a.doc_id.data < b.doc_id.data ∨
    (a.doc_id = b.doc_id ∧ a.serial_no ≤ b.serial_no)

instance : DecidableRel leDocSerial := fun a b =>
  inferInstanceAs
    (Decidable (a.doc_id.data < b.doc_id.data ∨
      (a.doc_id = b.doc_id ∧ a.serial_no ≤ b.serial_no)))

theorem strDataLt_iff (a b : String) : a.data < b.data ↔ a < b :=
  String.lt_iff_toList_lt.symm

instance : IsTotal RecOut leDocSerial := ⟨fun a b => by
  unfold leDocSerial
  rw [strDataLt_iff, strDataLt_iff]
  rcases lt_trichotomy a.doc_id b.doc_id with h | h | h
  · exact Or.inl (Or.inl h)
  · rcases Nat.le_total a.serial_no b.serial_no with h' | h'
    · exact Or.inl (Or.inr ⟨h, h'⟩)
    · exact Or.inr (Or.inr ⟨h.symm, h'⟩)
  · exact Or.inr (Or.inl h)⟩

instance : IsTrans RecOut leDocSerial := ⟨fun a b c hab hbc => by
  unfold leDocSerial at hab hbc ⊢
  rw [strDataLt_iff] at hab hbc ⊢
  rcases hab with h | ⟨he, hs⟩ <;> rcases hbc with h' | ⟨he', hs'⟩
  · exact Or.inl (lt_trans h h')
  · exact Or.inl (lt_of_lt_of_eq h he')
  · exact Or.inl (lt_of_eq_of_lt he h')
  · exact Or.inr ⟨he.trans he', le_trans hs hs'⟩⟩

/-- The key order of the insertion-ordered `defaultdict(list)` built by
`assign_serial_numbers` (lines 358-360): `doc_id`s in first-occurrence
order. -/
def docKeys (l : List RecIn) : List String :=
  l.foldl (fun ks r => if r.doc_id ∈ ks then ks else ks ++ [r.doc_id]) []

/-- `grouped[d]`: the records of document `d` in input order. -/
def groupOf (l : List RecIn) (d : String) : List RecIn :=
  l.filter (fun r => decide (r.doc_id = d))

/-- The `enumerate(voters, start=1)` loop (lines 369-375): store the 1-based
position as `serial_no`. -/
def numberSerials (vs : List RecIn) : List RecOut :=
  (List.enumFrom 1 vs).map (fun p => ⟨p.2.doc_id, p.2.page_no, p.1⟩)

/-- `ocr_extract.assign_serial_numbers` (lines 353-378): group by `doc_id`
(dict insertion order), stable-sort each group by `page_no` (Python's stable
`list.sort`, modelled by insertion sort on `≤`), number each group from 1,
concatenate, then stable-sort the whole list by `(doc_id, serial_no)`. -/
def assign_serial_numbers (l : List RecIn) : List RecOut :=
  List.insertionSort leDocSerial
    (((docKeys l).map
        (fun d => numberSerials (List.insertionSort lePage (groupOf l d)))).flatten)

/-! ## quality_flags.py -/

/-- A Python value stored in a record dict under one of the five flagged
keys: an absent key / `None`, a string, or a non-string value (e.g. an
`int`). -/
inductive PyVal
  | vNone
  | vStr (s : String)
  | vInt (n : Int)
  deriving Repr, DecidableEq

/-- The `missing` helper of `quality_flags.flag_record` (lines 16-18):
a value is missing iff it is `None` or a whitespace-only string. -/
def pyMissing : PyVal → Bool
  | .vNone => true
  | .vStr s => s.trim == ""
  | .vInt _ => false

/-- The five fields tested by `flag_record`, in test order. -/
structure FlagFields where
  epic_id : PyVal
  name : PyVal
  house_no : PyVal
  age : PyVal
  gender : PyVal
  deriving Repr, DecidableEq

/-- The `reasons` list built by the five sequential `missing` tests of
`flag_record` (lines 20-29). -/
def flagReasons (r : FlagFields) : List String :=
  (if pyMissing r.epic_id then ["missing_epic_id"] else []) ++
  (if pyMissing r.name then ["missing_name"] else []) ++
  (if pyMissing r.house_no then ["missing_house_no"] else []) ++
  (if pyMissing r.age then ["missing_age"] else []) ++
  (if pyMissing r.gender then ["missing_gender"] else [])

/-- `quality_flags.FlagResult`. -/
structure FlagResult where
  total_flags : Nat
  reasons : List String
  explanation : Option String
  deriving Repr, DecidableEq

/-- `quality_flags.flag_record` (lines 13-35). -/
def flag_record (r : FlagFields) : FlagResult :=
  let reasons := flagReasons r
  { total_flags := reasons.length
    reasons := reasons
    explanation :=
      if reasons.isEmpty then Option.none
      else some ("Missing: " ++
        String.intercalate ", " (reasons.map (fun s => s.replace "missing_" ""))) }

/-- The three columns added per record by `add_quality_flags`. -/
structure QualityCols where
  TOTAL_FLAGS : Nat
  FLAG_REASONS : String
  EXPLANATION_1 : String
  deriving Repr, DecidableEq

/-- `quality_flags.add_quality_flags` (lines 38-51), per record:
`TOTAL_FLAGS`, `FLAG_REASONS = ";".join(reasons) if reasons else ""`,
`EXPLANATION_1 = explanation or ""`. -/
def add_quality_flags (r : FlagFields) : QualityCols :=
  let fr := flag_record r
  { TOTAL_FLAGS := fr.total_flags
    FLAG_REASONS := if fr.reasons.isEmpty then "" else String.intercalate ";" fr.reasons
    EXPLANATION_1 :=
      match fr.explanation with
      | Option.none => ""
      | some e => e }

/-! ## write_csv.py -/

/-- The fixed `preferred_order` list of `write_csv._fieldnames_for_records`
(lines 17-34). -/
def preferred_order : List String :=
  ["assembly", "part_no", "street", "serial_no", "epic_id", "name",
   "father_name", "mother_name", "husband_name", "other_name", "house_no",
   "age", "gender", "TOTAL_FLAGS", "FLAG_REASONS", "EXPLANATION_1"]

/-- `filtered_columns` (line 36): internal bookkeeping keys excluded from the
output. -/
def filtered_columns : List String :=
  ["source_image", "ocr_text", "doc_id", "page_no", "voter_no"]

/-- `all_fieldnames` (lines 13-15): the union of the key sets of all records,
as a duplicate-free list; a record is modelled by its list of keys. -/
def allFieldnames (records : List (List String)) : List String :=
  records.flatten.dedup

/-- `write_csv._fieldnames_for_records` (lines 12-40): the preferred columns
that occur, in preferred order, followed by the remaining occurring keys in
alphabetical order, excluding the bookkeeping columns. -/
def fieldnames_for_records (records : List (List String)) : List String :=
  let all := allFieldnames records
  preferred_order.filter (fun f => decide (f ∈ all)) ++
    (List.insertionSort (fun a b : String => a ≤ b) all).filter
      (fun f => decide (f ∉ preferred_order) && decide (f ∉ filtered_columns))

/-! ## run_state.py -/

/-- `run_state.PdfState`. Timestamps are opaque strings supplied by the
caller; the completeness ratio (a float the code only stores and prints) is
kept as its rendered string. -/
structure PdfState where
  pdf_name : String
  status : String := "pending"
  stage : Option String := Option.none
  started_at_utc : Option String := Option.none
  finished_at_utc : Option String := Option.none
  extracted_voters : Option Nat := Option.none
  total_voters_expected : Option Nat := Option.none
  completeness_ratio : Option String := Option.none
  warnings : Option String := Option.none
  error : Option String := Option.none
  deriving Repr, DecidableEq

/-- `run_state.RunState`: run id, state root, and the insertion-ordered
`pdf_stem -> PdfState` dict, modelled as an association list. -/
structure RunState where
  run_id : String
  root_dir : String := "runs"
  state : List (String × PdfState) := []
  deriving Repr, DecidableEq

/-- `RunState.run_dir`. -/
def RunState.runDir (rs : RunState) : String := rs.root_dir ++ "/" ++ rs.run_id

/-- `RunState.events_path`. -/
def RunState.eventsPath (rs : RunState) : String := rs.runDir ++ "/events.jsonl"

/-- `RunState.progress_path`. -/
def RunState.progressPath (rs : RunState) : String := rs.runDir ++ "/progress.csv"

/-- A file-system operation performed by the embedded code. `write` is an
`open(path, "w")` whole-file write, `append` an `open(path, "a")` line
append; `writeTmp` and `rename` model the temp-file-then-`os.replace`
protocol used by `write_csv.py`; `copy` is `shutil.copy2`. -/
inductive FsOp
  | write (path content : String)
  | append (path line : String)
  | writeTmp (path content : String)
  | rename (src dst : String)
  | copy (src dst : String)
  deriving Repr, DecidableEq

/-- Whether a trace contains a rename whose destination is `path`. -/
def hasRenameTo (ops : List FsOp) (path : String) : Bool :=
  ops.any fun op =>
    match op with
    | FsOp.rename _ dst => dst == path
    | _ => false

/-- Whether a trace contains any temporary-file write. -/
def hasTmpWrite (ops : List FsOp) : Bool :=
  ops.any fun op =>
    match op with
    | FsOp.writeTmp _ _ => true
    | _ => false

/-- Association-list lookup (`self.state.get(stem)` / `stem in self.state`). -/
def lookupState (st : List (String × PdfState)) (k : String) : Option PdfState :=
  (st.find? (fun p => p.1 == k)).map Prod.snd

/-- Association-list update of an existing key (`self.state[stem] = s`). -/
def updateState (st : List (String × PdfState)) (k : String) (v : PdfState) :
    List (String × PdfState) :=
  st.map (fun p => if p.1 == k then (k, v) else p)

/-- `RunState.upsert_pdf` (lines 55-58): insert a fresh pending `PdfState`
when the stem is new; return the map and the stored state. -/
def upsertPdf (st : List (String × PdfState)) (stem name : String) :
    List (String × PdfState) × PdfState :=
  match lookupState st stem with
  | some s => (st, s)
  | Option.none =>
      let s : PdfState := { pdf_name := name }
      (st ++ [(stem, s)], s)

/-- Render of an optional string CSV field (`None` prints empty here). -/
def renderOpt : Option String → String
  | Option.none => ""
  | some s => s

/-- Render of an optional integer CSV field. -/
def renderOptNat : Option Nat → String
  | Option.none => ""
  | some n => toString n

/-- One data row of `RunState.write_snapshot` (lines 126-140); the claims do
not depend on CSV quoting, so fields are comma-joined as-is. -/
def renderRow (stem : String) (s : PdfState) : String :=
  String.intercalate ","
    [stem, s.pdf_name, s.status, renderOpt s.stage, renderOpt s.started_at_utc,
     renderOpt s.finished_at_utc, renderOptNat s.extracted_voters,
     renderOptNat s.total_voters_expected, renderOpt s.completeness_ratio,
     renderOpt s.warnings, renderOpt s.error]

/-- The complete `progress.csv` content written by `RunState.write_snapshot`:
the header line plus one row per stem, in sorted stem order (line 124). -/
def renderSnapshot (rs : RunState) : String :=
  String.intercalate "\n"
    ("pdf_stem,pdf_name,status,stage,started_at_utc,finished_at_utc,extracted_voters,total_voters_expected,completeness_ratio,warnings,error"
      :: (List.insertionSort (fun a b : String => a ≤ b) (rs.state.map Prod.fst)).map
          (fun stem =>
            match lookupState rs.state stem with
            | some s => renderRow stem s
            | Option.none => ""))

/-- `RunState.write_snapshot` (lines 107-140): a single direct
`open(progress_path, "w")` whole-file write of the complete snapshot. The
source uses no temporary file and no rename here. -/
def write_snapshot (rs : RunState) : List FsOp :=
  [FsOp.write rs.progressPath (renderSnapshot rs)]

/-- The `events.jsonl` line of `RunState.log_event` (lines 50-53); the JSON
rendering is abstracted to a key-value join, the claims depend only on the
append itself. -/
def renderEvent (event_type stem payload now : String) : String :=
  String.intercalate ";"
    ["ts_utc=" ++ now, "event=" ++ event_type, "pdf_stem=" ++ stem, payload]

/-- `RunState.log_event`: append one line to `events.jsonl`. -/
def log_event (rs : RunState) (event_type stem payload now : String) : List FsOp :=
  [FsOp.append rs.eventsPath (renderEvent event_type stem payload now)]

/-- `RunState.set_status` (lines 60-72): upsert the document, stamp
start/finish times, set status and stage, log the event and rewrite the
snapshot. Returns the new state and the trace of file operations; `now`
stands for `utc_now_iso()`. -/
def set_status (rs : RunState) (stem name status : String)
    (stage : Option String) (now : String) : RunState × List FsOp :=
  let p := upsertPdf rs.state stem name
  let s := p.2
  let s := if status = "in_progress" ∧ s.started_at_utc = Option.none
    then { s with started_at_utc := some now } else s
  let s := if status ∈ (["completed", "failed", "incomplete"] : List String)
    then { s with finished_at_utc := some now } else s
  let s := { s with status := status }
  let s := match stage with
    | some g => { s with stage := some g }
    | Option.none => s
  let rs' : RunState := { rs with state := updateState p.1 stem s }
  (rs',
    log_event rs "status" stem ("status=" ++ status) now ++ write_snapshot rs')

/-- The field updates of `RunState.set_metrics` (lines 86-95): overwrite
exactly the fields whose argument is not `None`. -/
def applyMetrics (s : PdfState)
    (extracted_voters total_voters_expected : Option Nat)
    (completeness_ratio warnings error : Option String) : PdfState :=
  let s := match extracted_voters with
    | some v => { s with extracted_voters := some v }
    | Option.none => s
  let s := match total_voters_expected with
    | some v => { s with total_voters_expected := some v }
    | Option.none => s
  let s := match completeness_ratio with
    | some v => { s with completeness_ratio := some v }
    | Option.none => s
  let s := match warnings with
    | some v => { s with warnings := some v }
    | Option.none => s
  match error with
  | some v => { s with error := some v }
  | Option.none => s

/-- `RunState.set_metrics` (lines 74-105): upsert the document, overwrite
exactly the fields whose argument is not `None`, log the event and rewrite
the snapshot. -/
def set_metrics (rs : RunState) (stem name : String)
    (extracted_voters total_voters_expected : Option Nat)
    (completeness_ratio warnings error : Option String) (now : String) :
    RunState × List FsOp :=
  let p := upsertPdf rs.state stem name
  let s := applyMetrics p.2 extracted_voters total_voters_expected
    completeness_ratio warnings error
  let rs' : RunState := { rs with state := updateState p.1 stem s }
  (rs', log_event rs "metrics" stem "metrics" now ++ write_snapshot rs')

/-! ## main.py: integrity loop -/

/-- One element of `ocr_results` as read by the integrity loop of `main.main`
(lines 267-295). -/
structure OcrItem where
  source_image : String
  page_no : Nat
  ocr_text : String
  deriving Repr, DecidableEq

/-- One entry of `integrity.marker_splits_failed_pages`
(`page_debug`, lines 277-281). -/
structure PageDebug where
  page_no : Nat
  source_image : String
  marker_splits : Nat
  deriving Repr, DecidableEq

/-- `min_expected_splits = 25` (`main.main` line 269). -/
def min_expected_splits : Nat := 25

/-- The debug-area file operations for one low-split page (`main.main` lines
284-295): copy the stacked image when it exists on disk, write the raw OCR
text and the integrity JSON. `stackedExists` models `stacked_img.exists()`,
`debugRoot` is `runs/<run_id>/debug/<pdf_stem>` and `cropsDir` is the
document's crops directory. -/
def debugOpsFor (debugRoot cropsDir : String) (stackedExists : String → Bool)
    (it : OcrItem) (splits : Nat) : List FsOp :=
  let base := it.source_image.replace "_stacked_ocr.txt" ""
  let stacked := cropsDir ++ "/" ++ base ++ "_stacked_crops.jpg"
  (if stackedExists stacked
   then [FsOp.copy stacked (debugRoot ++ "/" ++ base ++ "_stacked_crops.jpg")]
   else []) ++
  [FsOp.write (debugRoot ++ "/" ++ base ++ "_ocr.txt") it.ocr_text,
   FsOp.write (debugRoot ++ "/" ++ base ++ "_integrity.json")
     ("page_no=" ++ toString it.page_no ++ ";source_image=" ++ it.source_image ++
       ";marker_splits=" ++ toString splits)]

/-- The state accumulated by the integrity loop: the per-page split counts,
the `low_split_pages` report entries, the debug-area trace, and the list
handed to record extraction (`clean_and_extract_csv_v2(ocr_results)` on line
297 receives the whole of `ocr_results`; the loop filters nothing out). -/
structure IntegrityResult where
  split_counts : List Nat
  low_split_pages : List PageDebug
  debug_ops : List FsOp
  extraction_input : List OcrItem
  deriving Repr, DecidableEq

/-- One iteration of the integrity loop (`main.main` lines 272-295). -/
def integrityStep (splitsOf : String → Nat) (debugRoot cropsDir : String)
    (stackedExists : String → Bool) (acc : IntegrityResult) (it : OcrItem) :
    IntegrityResult :=
  let splits := splitsOf it.ocr_text
  if splits < min_expected_splits then
    { acc with
      split_counts := acc.split_counts ++ [splits]
      low_split_pages := acc.low_split_pages ++
        [⟨it.page_no, it.source_image, splits⟩]
      debug_ops := acc.debug_ops ++
        debugOpsFor debugRoot cropsDir stackedExists it splits }
  else { acc with split_counts := acc.split_counts ++ [splits] }

/-- The integrity loop of `main.main` (lines 267-297). `splitsOf` abstracts
`len(utilities.split_voters_from_page_ocr(text))`; `utilities.py` is not part
of the excerpt and the loop only ever uses the length of its result. -/
def integrityLoop (splitsOf : String → Nat) (debugRoot cropsDir : String)
    (stackedExists : String → Bool) (ocr_results : List OcrItem) :
    IntegrityResult :=
  ocr_results.foldl (integrityStep splitsOf debugRoot cropsDir stackedExists)
    ⟨[], [], [], ocr_results⟩

/-! ## main.py: strict mode -/

/-- The per-document data feeding the end-of-document decision of
`main.main`: the document's name, `len(cleaned_records)` and the
`total_voters_expected` parsed from the summary page. -/
structure DocOutcome where
  pdf_name : String
  extracted : Nat
  total_expected : Option Nat
  deriving Repr, DecidableEq

/-- Python truthiness of the `Optional[int]` value `total_expected`:
`None` and `0` are falsy. -/
def truthyNat : Option Nat → Bool
  | Option.none => false
  | some n => n != 0

/-- The status decision of `main.main` lines 345-349: in strict mode, a
truthy expected total that differs from the extracted count marks the
document `incomplete`; every other case marks it `completed`. -/
def finalStatus (strict : Bool) (d : DocOutcome) : String :=
  if strict && truthyNat d.total_expected && (d.total_expected != some d.extracted)
  then "incomplete" else "completed"

/-- The `strict_failures` list accumulated across the document loop
(line 347). -/
def strictFailures (strict : Bool) (docs : List DocOutcome) : List String :=
  (docs.filter (fun d => finalStatus strict d == "incomplete")).map (·.pdf_name)

/-- The process exit code decided at `main.main` lines 370-372:
`sys.exit(1)` when strict mode accumulated failures, else the implicit 0. -/
def mainExitCode (strict : Bool) (docs : List DocOutcome) : Nat :=
  if strict && !(strictFailures strict docs).isEmpty then 1 else 0

/-- The `run_state.set_metrics` call of `main.main` lines 313-322, issued in
both modes before the status decision: `extracted_voters` always,
`total_voters_expected` as parsed, and `completeness_ratio` exactly when the
expected total is truthy (the float value itself is only stored and printed
and is abstracted to its rendered name). -/
def recordDocMetrics (rs : RunState) (stem : String) (d : DocOutcome)
    (now : String) : RunState × List FsOp :=
  set_metrics rs stem d.pdf_name (some d.extracted) d.total_expected
    (if truthyNat d.total_expected then some "ratio" else Option.none)
    Option.none Option.none now

/-! ## main.py: per-document failure handling -/

/-- A document as seen by the driver loop: its stem and the image files the
OCR stage enumerates for it. -/
structure DocJob where
  pdf_stem : String
  image_files : List String
  deriving Repr, DecidableEq

/-- The OCR stage for one document (`ocr_extract.ocr_images_for_pdf`): the
language check of lines 186-202 runs after job enumeration and before any OCR
job is submitted to the pool (lines 204-218); on failure the `RuntimeError`
propagates and no OCR output is produced, on success every job runs. Returns
the list of images OCRed. -/
def ocr_images_for_pdf (installed : List String) (d : DocJob) :
    Except String (List String) :=
  match ocrLanguageCheck d.image_files installed with
  | Except.error e => Except.error e
  | Except.ok _ => Except.ok d.image_files

/-- The per-document protection of the driver loop (`main.main` lines
231-353): an exception raised by a stage is caught, the document is marked
`failed` and the loop continues with the next document. The
conversion/cropping stages preceding OCR are pure I/O over disjoint
per-document directories and are elided; the value records the status and
the OCR outputs produced. -/
def processDoc (installed : List String) (d : DocJob) : String × List String :=
  match ocr_images_for_pdf installed d with
  | Except.error _ => ("failed", [])
  | Except.ok outs => ("completed", outs)

/-- The driver loop over all documents of the run. -/
def runPipeline (installed : List String) (docs : List DocJob) :
    List (String × String × List String) :=
  docs.map (fun d => (d.pdf_stem, processDoc installed d))

/-! ## Spec-side helper definitions used by the claim statements -/

/-- Number of semicolon-separated tokens in a joined reason string: 0 for the
empty string, else one more than the number of `;` separators (which equals
the number of `splitOn ";"` chunks, as no token contains `;`). -/
def tokenCount (s : String) : Nat :=
  if s = "" then 0
  else s.data.foldl (fun n c => if c = ';' then n + 1 else n) 1

/-- `flagReasons` as a function of the five missingness bits (used to settle
string-level facts by exhaustive case evaluation). -/
def reasonsOfBits (b1 b2 b3 b4 b5 : Bool) : List String :=
  (if b1 then ["missing_epic_id"] else []) ++
  (if b2 then ["missing_name"] else []) ++
  (if b3 then ["missing_house_no"] else []) ++
  (if b4 then ["missing_age"] else []) ++
  (if b5 then ["missing_gender"] else [])

/-! # Theorems -/

/-! ## Language detection (C10, C4) -/

theorem detect_eq_ite (f : String) :
    detect_ocr_language_from_filename f =
      if "-TAM-".data <:+: upperChars f then "tam+eng" else "eng" := by
  unfold detect_ocr_language_from_filename
  by_cases h : "-TAM-".data <:+: upperChars f
  · simp [h]
  · simp [h]

theorem detect_eq_tam_or_eng (f : String) :
    detect_ocr_language_from_filename f = "tam+eng" ∨
      detect_ocr_language_from_filename f = "eng" := by
  rw [detect_eq_ite]
  by_cases h : "-TAM-".data <:+: upperChars f
  · exact Or.inl (if_pos h)
  · exact Or.inr (if_neg h)

theorem upperChars_mk (l : List Char) : upperChars ⟨l⟩ = l.map Char.toUpper := rfl

/-- C10: Language detection from the filename is case-insensitive — the
filename is uppercased before the substring test, so (1) any two filenames
that agree after ASCII uppercasing detect the same language; (2) any casing
of `-tam-` selects Tamil+English; (3) any casing of `-eng-` selects
English-only whenever no casing of `-tam-` occurs in the filename. -/
theorem C10_case_insensitive_language_detection :
    (∀ s t : String, upperChars s = upperChars t →
      detect_ocr_language_from_filename s = detect_ocr_language_from_filename t) ∧
    (∀ pre mid post : List Char, mid.map Char.toUpper = "-TAM-".data →
      detect_ocr_language_from_filename ⟨pre ++ mid ++ post⟩ = "tam+eng") ∧
    (∀ pre mid post : List Char, mid.map Char.toUpper = "-ENG-".data →
      ¬ "-TAM-".data <:+: (pre ++ mid ++ post).map Char.toUpper →
      detect_ocr_language_from_filename ⟨pre ++ mid ++ post⟩ = "eng") := by
  refine ⟨fun s t h => ?_, fun pre mid post h => ?_, fun pre mid post h hno => ?_⟩
  · rw [detect_eq_ite, detect_eq_ite, h]
  · rw [detect_eq_ite, upperChars_mk, if_pos]
    rw [List.map_append, List.map_append, ← h]
    exact List.infix_append _ _ _
  · rw [detect_eq_ite, upperChars_mk, if_neg hno]

/-- Witness for C10 at concrete inputs: a lower/mixed-cased `-Tam-` marker
selects Tamil+English and a mixed-cased `-eNg-` marker selects English. -/
theorem C10_witness :
    detect_ocr_language_from_filename "roll-Tam-07.pdf" = "tam+eng" ∧
    detect_ocr_language_from_filename "roll-eNg-07.pdf" = "eng" := by
  constructor
  · have h := C10_case_insensitive_language_detection.2.1
      "roll".data "-Tam-".data "07.pdf".data (by decide)
    have he : ("roll-Tam-07.pdf" : String) =
        ⟨"roll".data ++ "-Tam-".data ++ "07.pdf".data⟩ := by decide
    rw [he]; exact h
  · have h := C10_case_insensitive_language_detection.2.2
      "roll".data "-eNg-".data "07.pdf".data (by decide) (by decide)
    have he : ("roll-eNg-07.pdf" : String) =
        ⟨"roll".data ++ "-eNg-".data ++ "07.pdf".data⟩ := by decide
    rw [he]; exact h

/-- C4 fails as stated: the filename `A-TAM-ENG-B.pdf` contains the substring
`-ENG-`, yet it selects Tamil+English, so the Tamil language pack is
required for it — contradicting "an input filename containing `-ENG-` never
causes the Tamil language pack to be required". -/
theorem C4_counterexample :
    strContains "A-TAM-ENG-B.pdf" "-ENG-" = true ∧
    detect_ocr_language_from_filename "A-TAM-ENG-B.pdf" = "tam+eng" ∧
    "tam" ∈ requiredLangsForImages ["A-TAM-ENG-B.pdf"] := by decide

/-- C4 amended: the derived language set is Tamil+English exactly when the
uppercased filename contains `-TAM-`; otherwise it is English-only, even
when the filename contains `-ENG-`. Consequently a filename containing
`-ENG-` but not containing `-TAM-` (case-insensitively) never causes the
Tamil language pack to be required, while a filename containing `-TAM-`
requires both the English and the Tamil packs — including filenames that
contain both `-TAM-` and `-ENG-`, where `-TAM-` takes precedence. -/
theorem C4_amended_language_routing (f : String) :
    (detect_ocr_language_from_filename f = "tam+eng" ↔
      "-TAM-".data <:+: upperChars f) ∧
    (detect_ocr_language_from_filename f = "eng" ↔
      ¬ "-TAM-".data <:+: upperChars f) ∧
    (requiredLangsForImages [f] =
      if "-TAM-".data <:+: upperChars f then ["eng", "tam"] else ["eng"]) ∧
    ("tam" ∈ requiredLangsForImages [f] ↔ "-TAM-".data <:+: upperChars f) ∧
    "eng" ∈ requiredLangsForImages [f] := by
  have hreq : requiredLangsForImages [f] =
      if "-TAM-".data <:+: upperChars f then ["eng", "tam"] else ["eng"] := by
    unfold requiredLangsForImages requiredLangs
    rw [List.map_singleton, detect_eq_ite]
    by_cases h : "-TAM-".data <:+: upperChars f
    · simp [h, insertLang]
    · simp [h, insertLang]
  refine ⟨?_, ?_, hreq, ?_, ?_⟩
  · rw [detect_eq_ite]
    by_cases h : "-TAM-".data <:+: upperChars f
    · simp [h]
    · simp [h]
  · rw [detect_eq_ite]
    by_cases h : "-TAM-".data <:+: upperChars f
    · simp [h]
    · simp [h]
  · rw [hreq]
    by_cases h : "-TAM-".data <:+: upperChars f
    · simp [h]
    · simp [h]
  · rw [hreq]
    by_cases h : "-TAM-".data <:+: upperChars f
    · simp [h]
    · simp [h]

/-- Witness for C4's amended claim at a concrete input containing both
markers. -/
theorem C4_amended_witness :
    detect_ocr_language_from_filename "A-TAM-ENG-B.pdf" = "tam+eng" ∧
    requiredLangsForImages ["A-TAM-ENG-B.pdf"] = ["eng", "tam"] := by
  have h := C4_amended_language_routing "A-TAM-ENG-B.pdf"
  have htam : "-TAM-".data <:+: upperChars "A-TAM-ENG-B.pdf" := by decide
  exact ⟨h.1.mpr htam, by rw [h.2.2.1, if_pos htam]⟩

/-! ## Page classification (C3) -/

theorem enumFrom_map_fst {α : Type} (n : Nat) (l : List α) :
    (List.enumFrom n l).map Prod.fst = List.range' n l.length := by
  induction l generalizing n with
  | nil => rfl
  | cons x xs ih => simp [List.enumFrom, List.range'_succ, ih]

theorem classification_shape (f : String) (n : Nat) :
    ∃ vsp, (vsp = 3 ∨ vsp = 4) ∧
      convert_pdf_to_jpgs f n =
        { lang := detect_ocr_language_from_filename f
          voter_start_page := vsp
          cover_pages := rangePy 1 (min vsp (n + 1))
          voter_page_nos := if n > vsp then rangePy vsp n else []
          summary_page := if n ≥ vsp then some n else Option.none } ∧
      (detect_ocr_language_from_filename f = "eng" → vsp = 3) ∧
      (detect_ocr_language_from_filename f = "tam+eng" → vsp = 4) := by
  rcases detect_eq_tam_or_eng f with h | h
  · refine ⟨4, Or.inr rfl, ?_, fun he => ?_, fun _ => rfl⟩
    · unfold convert_pdf_to_jpgs
      rw [h]
      have hc : strContains "tam+eng" "tam+eng" = true := by decide
      simp [hc, TAM_START_PAGE]
    · rw [h] at he; exact absurd he (by decide)
  · refine ⟨3, Or.inl rfl, ?_, fun _ => rfl, fun he => ?_⟩
    · unfold convert_pdf_to_jpgs
      rw [h]
      have hc : strContains "eng" "tam+eng" = false := by decide
      simp [hc, ENG_START_PAGE]
    · rw [h] at he; exact absurd he (by decide)

/-- C3 fails as stated: the English document `A-ENG-1.pdf` has K = 2, but
with `pages_total = 1` only one page is classified as a cover page, so
`cover_count ≠ K` — the claim's "for every value of pages_total ≥ 1" is too
strong. -/
theorem C3_counterexample :
    (convert_pdf_to_jpgs "A-ENG-1.pdf" 1).lang = "eng" ∧
    (convert_pdf_to_jpgs "A-ENG-1.pdf" 1).voter_start_page - 1 = 2 ∧
    coverCount (convert_pdf_to_jpgs "A-ENG-1.pdf" 1) = 1 := by decide

/-- C3 amended: with K = voter_start_page − 1 (K = 2 for English, K = 3 for
Tamil+English), the renderer classifies the first min(K, pages_total) pages
as cover pages — equal to K whenever pages_total ≥ K, but fewer for
documents shorter than K pages; the last page is the summary page iff
pages_total ≥ K+1; the voter-grid pages are exactly the pages strictly in
between (K+1 .. pages_total−1), renumbered from 1; and voter_grid_count =
pages_total − cover_count − summary_count, for every pages_total ≥ 1. -/
theorem C3_amended_page_classification (f : String) (n : Nat) (hn : 1 ≤ n) :
    ((convert_pdf_to_jpgs f n).lang = "eng" →
      (convert_pdf_to_jpgs f n).voter_start_page - 1 = 2) ∧
    ((convert_pdf_to_jpgs f n).lang = "tam+eng" →
      (convert_pdf_to_jpgs f n).voter_start_page - 1 = 3) ∧
    coverCount (convert_pdf_to_jpgs f n) =
      min ((convert_pdf_to_jpgs f n).voter_start_page - 1) n ∧
    (convert_pdf_to_jpgs f n).cover_pages =
      rangePy 1 (min ((convert_pdf_to_jpgs f n).voter_start_page - 1) n + 1) ∧
    (n ≥ (convert_pdf_to_jpgs f n).voter_start_page - 1 →
      coverCount (convert_pdf_to_jpgs f n) =
        (convert_pdf_to_jpgs f n).voter_start_page - 1) ∧
    ((convert_pdf_to_jpgs f n).summary_page = some n ↔
      n ≥ (convert_pdf_to_jpgs f n).voter_start_page) ∧
    ((convert_pdf_to_jpgs f n).summary_page = Option.none ↔
      n ≤ (convert_pdf_to_jpgs f n).voter_start_page - 1) ∧
    (convert_pdf_to_jpgs f n).voter_page_nos =
      rangePy (convert_pdf_to_jpgs f n).voter_start_page n ∧
    (voterPagesRenumbered (convert_pdf_to_jpgs f n)).map Prod.fst =
      List.range' 1 (voterGridCount (convert_pdf_to_jpgs f n)) ∧
    voterGridCount (convert_pdf_to_jpgs f n) =
      n - coverCount (convert_pdf_to_jpgs f n) -
        summaryCount (convert_pdf_to_jpgs f n) := by
  obtain ⟨vsp, hv34, heq, heng, htam⟩ := classification_shape f n
  rw [heq]
  dsimp only
  have hvsp1 : 1 ≤ vsp := by rcases hv34 with h | h <;> omega
  refine ⟨fun he => by rw [heng he], fun he => by rw [htam he], ?_, ?_, ?_, ?_,
    ?_, ?_, ?_, ?_⟩
  · simp only [coverCount, rangePy, List.length_range']
    omega
  · have : min vsp (n + 1) = min (vsp - 1) n + 1 := by omega
    rw [this]
  · intro h
    simp only [coverCount, rangePy, List.length_range']
    omega
  · by_cases h : n ≥ vsp <;> simp [h]
  · by_cases h : n ≥ vsp <;> simp [h] <;> omega
  · by_cases h : n > vsp
    · simp [h]
    · have hz : n - vsp = 0 := by omega
      simp [h, rangePy, hz]
  · simp only [voterPagesRenumbered, voterGridCount]
    exact enumFrom_map_fst 1 _
  · by_cases h : n > vsp
    · simp only [voterGridCount, coverCount, summaryCount, h, if_pos,
        rangePy, List.length_range']
      have h2 : n ≥ vsp := by omega
      simp [h2]
      omega
    · by_cases h2 : n ≥ vsp
      · simp only [voterGridCount, coverCount, summaryCount, rangePy,
          List.length_range']
        simp [h, h2]
        omega
      · simp only [voterGridCount, coverCount, summaryCount, rangePy,
          List.length_range']
        simp [h, h2]
        omega

/-- Witness for C3's amended claim: a 5-page English document has 2 covers,
a summary page, and 2 voter-grid pages (5 − 2 − 1). -/
theorem C3_amended_witness :
    coverCount (convert_pdf_to_jpgs "A-ENG-1.pdf" 5) = 2 ∧
    (convert_pdf_to_jpgs "A-ENG-1.pdf" 5).summary_page = some 5 ∧
    voterGridCount (convert_pdf_to_jpgs "A-ENG-1.pdf" 5) =
      5 - coverCount (convert_pdf_to_jpgs "A-ENG-1.pdf" 5) -
        summaryCount (convert_pdf_to_jpgs "A-ENG-1.pdf" 5) := by
  have h := C3_amended_page_classification "A-ENG-1.pdf" 5 (by decide)
  refine ⟨?_, ?_, h.2.2.2.2.2.2.2.2.2⟩
  · have hc := h.2.2.2.2.1 (by decide)
    rw [hc]
    exact h.1 (by decide)
  · exact h.2.2.2.2.2.1.mpr (by decide)

/-! ## Run-state snapshot writes (C1) -/

/-- C1 fails as stated: a concrete status update (`set_status` on a fresh
run state) rewrites `progress.csv` with a direct whole-file write; its
file-operation trace contains no rename into the progress path and no
temporary-file write, so the snapshot update is not performed with the
write-temp-then-rename protocol the claim describes. -/
theorem C1_counterexample :
    hasRenameTo
        (set_status ⟨"r1", "runs", []⟩ "docA" "docA.pdf" "in_progress"
          (some "convert") "T0").2
        (RunState.progressPath ⟨"r1", "runs", []⟩) = false ∧
    hasTmpWrite
        (set_status ⟨"r1", "runs", []⟩ "docA" "docA.pdf" "in_progress"
          (some "convert") "T0").2 = false ∧
    (set_status ⟨"r1", "runs", []⟩ "docA" "docA.pdf" "in_progress"
          (some "convert") "T0").2.length = 2 := by decide

/-- C1 amended: every mutation of the run state (`set_status` and
`set_metrics`) appends one event line to `events.jsonl` and then rewrites
the snapshot with a single direct whole-file write of the complete new
snapshot straight to `progress.csv`. No temporary file and no rename is
involved, so the rewrite is not atomic against a concurrent reader — but
each write does contain a complete snapshot, so a reader between mutations
sees a full snapshot. -/
theorem C1_amended_snapshot_rewrite (rs : RunState) (stem name status : String)
    (stage : Option String) (extracted total : Option Nat)
    (ratio warnings error : Option String) (now : String) :
    (set_status rs stem name status stage now).2 =
      [FsOp.append rs.eventsPath (renderEvent "status" stem ("status=" ++ status) now),
       FsOp.write rs.progressPath
         (renderSnapshot (set_status rs stem name status stage now).1)] ∧
    hasRenameTo (set_status rs stem name status stage now).2 rs.progressPath = false ∧
    hasTmpWrite (set_status rs stem name status stage now).2 = false ∧
    (set_metrics rs stem name extracted total ratio warnings error now).2 =
      [FsOp.append rs.eventsPath (renderEvent "metrics" stem "metrics" now),
       FsOp.write rs.progressPath
         (renderSnapshot (set_metrics rs stem name extracted total ratio warnings error now).1)] ∧
    hasRenameTo (set_metrics rs stem name extracted total ratio warnings error now).2
      rs.progressPath = false ∧
    hasTmpWrite (set_metrics rs stem name extracted total ratio warnings error now).2 =
      false :=
  ⟨rfl, rfl, rfl, rfl, rfl, rfl⟩

/-! ## Strict mode (C6) -/

/-- C6 fails as stated: with a known expected total of 0 (`some 0`, e.g. a
summary page whose "Total" reads 0) and 30 extracted voters, strict mode
marks the document `completed` and exits 0, because the code's truthiness
test `if args.strict and total_expected and ...` treats the known value 0
like an unknown one. -/
theorem C6_counterexample :
    (⟨"a.pdf", 30, some 0⟩ : DocOutcome).total_expected = some 0 ∧
    (30 : Nat) ≠ 0 ∧
    finalStatus true ⟨"a.pdf", 30, some 0⟩ = "completed" ∧
    mainExitCode true [⟨"a.pdf", 30, some 0⟩] = 0 := by decide

/-- C6 amended: for every document whose `total_voters_expected` is known
and non-zero, a discrepancy with the extracted count marks the document
`incomplete` in strict mode (and the process exits 1 after all documents
finish), while in normal mode every document is `completed` and the process
exits 0; in both modes the extracted count and the known expected total are
recorded in the run state by the metrics update. -/
theorem C6_amended_strict_mode (strict : Bool) (docs : List DocOutcome) :
    (∀ d ∈ docs, ∀ t, d.total_expected = some t → t ≠ 0 → d.extracted ≠ t →
      finalStatus strict d = if strict then "incomplete" else "completed") ∧
    (∀ d ∈ docs, ∀ t, d.total_expected = some t → t ≠ 0 → d.extracted ≠ t →
      strict = true → d.pdf_name ∈ strictFailures strict docs) ∧
    (mainExitCode strict docs = 1 ↔
      strict = true ∧ ∃ d ∈ docs, finalStatus strict d = "incomplete") ∧
    (mainExitCode strict docs = 0 ∨ mainExitCode strict docs = 1) ∧
    (strict = false → mainExitCode strict docs = 0) ∧
    (∀ s : PdfState, ∀ d : DocOutcome,
      (applyMetrics s (some d.extracted) d.total_expected
          (if truthyNat d.total_expected then some "ratio" else Option.none)
          Option.none Option.none).extracted_voters = some d.extracted ∧
      (∀ t, d.total_expected = some t →
        (applyMetrics s (some d.extracted) d.total_expected
          (if truthyNat d.total_expected then some "ratio" else Option.none)
          Option.none Option.none).total_voters_expected = some t)) := by
  have hstatus : ∀ d ∈ docs, ∀ t, d.total_expected = some t → t ≠ 0 →
      d.extracted ≠ t →
      finalStatus strict d = if strict then "incomplete" else "completed" := by
    intro d _ t ht htz hne
    have htne : ¬ t = d.extracted := fun h => hne h.symm
    have hb : (d.total_expected != some d.extracted) = true := by
      rw [ht]
      simpa [bne_iff_ne] using htne
    cases strict with
    | false => simp [finalStatus]
    | true => simp [finalStatus, ht, truthyNat, htz, htne]
  refine ⟨hstatus, ?_, ?_, ?_, ?_, ?_⟩
  · intro d hd t ht htz hne hs
    subst hs
    have h1 := hstatus d hd t ht htz hne
    simp only [if_pos rfl] at h1
    exact List.mem_map.mpr ⟨d, List.mem_filter.mpr ⟨hd, by simp [h1]⟩, rfl⟩
  · constructor
    · intro h
      unfold mainExitCode at h
      by_cases hc : (strict && !(strictFailures strict docs).isEmpty) = true
      · rw [Bool.and_eq_true] at hc
        refine ⟨hc.1, ?_⟩
        have hne : strictFailures strict docs ≠ [] := by
          intro hnil
          rw [hnil] at hc
          simp at hc
        obtain ⟨x, hx⟩ := List.exists_mem_of_ne_nil _ hne
        obtain ⟨d, hd, _⟩ := List.mem_map.mp hx
        have hdm := List.mem_filter.mp hd
        exact ⟨d, hdm.1, by simpa using hdm.2⟩
      · rw [if_neg hc] at h
        exact absurd h (by norm_num)
    · rintro ⟨hs, d, hd, hst⟩
      subst hs
      have hmem : d.pdf_name ∈ strictFailures true docs :=
        List.mem_map.mpr ⟨d, List.mem_filter.mpr ⟨hd, by simp [hst]⟩, rfl⟩
      have hne : strictFailures true docs ≠ [] := by
        intro hnil
        rw [hnil] at hmem
        simp at hmem
      have hie : (strictFailures true docs).isEmpty = false := by
        cases hfe : strictFailures true docs with
        | nil => exact absurd hfe hne
        | cons a l => rfl
      unfold mainExitCode
      simp [hie]
  · unfold mainExitCode
    by_cases hc : (strict && !(strictFailures strict docs).isEmpty) = true <;>
      simp [hc]
  · intro hs
    simp [mainExitCode, hs]
  · intro s d
    refine ⟨?_, fun t ht => ?_⟩
    · unfold applyMetrics
      rcases hv : (if truthyNat d.total_expected = true then some "ratio"
          else (Option.none : Option String)) with _ | v <;>
        cases d.total_expected <;> simp_all
    · rw [ht]
      unfold applyMetrics
      rcases hv : (if truthyNat (some t) = true then some "ratio"
          else (Option.none : Option String)) with _ | v <;> simp_all

/-- Witness for C6's amended claim: 58 extracted voters against a known
expected total of 60 in strict mode marks the document incomplete and the
process exits 1. -/
theorem C6_amended_witness :
    finalStatus true ⟨"a.pdf", 58, some 60⟩ = "incomplete" ∧
    mainExitCode true [⟨"a.pdf", 58, some 60⟩] = 1 := by
  have h := C6_amended_strict_mode true [⟨"a.pdf", 58, some 60⟩]
  have h1 := h.1 ⟨"a.pdf", 58, some 60⟩ (by decide) 60 rfl (by decide) (by decide)
  simp only [if_pos rfl] at h1
  exact ⟨h1, h.2.2.1.mpr ⟨rfl, ⟨"a.pdf", 58, some 60⟩, by decide, h1⟩⟩

/-! ## Quality flags (C8) -/

theorem flagReasons_eq_bits (r : FlagFields) :
    flagReasons r = reasonsOfBits (pyMissing r.epic_id) (pyMissing r.name)
      (pyMissing r.house_no) (pyMissing r.age) (pyMissing r.gender) := rfl

theorem quality_bits_facts (b1 b2 b3 b4 b5 : Bool) :
    (reasonsOfBits b1 b2 b3 b4 b5).length =
      ((if b1 then 1 else 0) + (if b2 then 1 else 0) + (if b3 then 1 else 0) +
        (if b4 then 1 else 0) + (if b5 then 1 else 0) : Nat) ∧
    tokenCount (if (reasonsOfBits b1 b2 b3 b4 b5).isEmpty then ""
        else String.intercalate ";" (reasonsOfBits b1 b2 b3 b4 b5)) =
      (reasonsOfBits b1 b2 b3 b4 b5).length ∧
    ((if (reasonsOfBits b1 b2 b3 b4 b5).isEmpty then ""
        else String.intercalate ";" (reasonsOfBits b1 b2 b3 b4 b5)) = "" ↔
      (reasonsOfBits b1 b2 b3 b4 b5).length = 0) := by
  revert b1 b2 b3 b4 b5
  decide

/-- C8: for every record, `TOTAL_FLAGS` is the number of absent fields among
epic_id, name, house_no, age, gender (absent = `None` or whitespace-only
string); `FLAG_REASONS` is the semicolon-joined `missing_<field>` tokens
(empty when nothing is missing); `EXPLANATION_1` is "Missing: " followed by
the comma-joined field names, or empty; hence `TOTAL_FLAGS` equals the
number of semicolon-separated tokens of `FLAG_REASONS`, and
`FLAG_REASONS = ""` iff `TOTAL_FLAGS = 0`. -/
theorem C8_quality_flag_columns (r : FlagFields) :
    (∀ v : PyVal, pyMissing v = true ↔
      v = PyVal.vNone ∨ ∃ s, v = PyVal.vStr s ∧ s.trim = "") ∧
    (add_quality_flags r).TOTAL_FLAGS =
      ((if pyMissing r.epic_id then 1 else 0) + (if pyMissing r.name then 1 else 0) +
        (if pyMissing r.house_no then 1 else 0) + (if pyMissing r.age then 1 else 0) +
        (if pyMissing r.gender then 1 else 0)) ∧
    (add_quality_flags r).FLAG_REASONS =
      (if flagReasons r = [] then "" else String.intercalate ";" (flagReasons r)) ∧
    tokenCount (add_quality_flags r).FLAG_REASONS = (add_quality_flags r).TOTAL_FLAGS ∧
    ((add_quality_flags r).FLAG_REASONS = "" ↔ (add_quality_flags r).TOTAL_FLAGS = 0) ∧
    (add_quality_flags r).EXPLANATION_1 =
      (if flagReasons r = [] then ""
       else "Missing: " ++ String.intercalate ", "
         ((flagReasons r).map (fun s => s.replace "missing_" ""))) := by
  have hb := quality_bits_facts (pyMissing r.epic_id) (pyMissing r.name)
    (pyMissing r.house_no) (pyMissing r.age) (pyMissing r.gender)
  refine ⟨?_, ?_, ?_, hb.2.1, hb.2.2, ?_⟩
  · intro v
    cases v with
    | vNone => simp [pyMissing]
    | vStr s => simp [pyMissing]
    | vInt n => simp [pyMissing]
  · exact hb.1
  · by_cases he : flagReasons r = [] <;>
      simp [add_quality_flags, flag_record, he, List.isEmpty_iff]
  · by_cases he : flagReasons r = [] <;>
      simp [add_quality_flags, flag_record, he, List.isEmpty_iff]

/-! ## Low-split integrity events (C7) -/

theorem integrityLoop_go (splitsOf : String → Nat) (debugRoot cropsDir : String)
    (stackedExists : String → Bool) (l : List OcrItem) (acc : IntegrityResult) :
    l.foldl (integrityStep splitsOf debugRoot cropsDir stackedExists) acc =
      { split_counts := acc.split_counts ++ l.map (fun it => splitsOf it.ocr_text)
        low_split_pages := acc.low_split_pages ++
          (l.filter (fun it => splitsOf it.ocr_text < min_expected_splits)).map
            (fun it => ⟨it.page_no, it.source_image, splitsOf it.ocr_text⟩)
        debug_ops := acc.debug_ops ++
          (l.filter (fun it => splitsOf it.ocr_text < min_expected_splits)).flatMap
            (fun it => debugOpsFor debugRoot cropsDir stackedExists it
              (splitsOf it.ocr_text))
        extraction_input := acc.extraction_input } := by
  induction l generalizing acc with
  | nil => simp
  | cons x xs ih =>
    by_cases h : splitsOf x.ocr_text < min_expected_splits
    · simp [integrityStep, h, ih, List.append_assoc]
    · simp [integrityStep, h, ih, List.append_assoc]

/-- C7: every stacked-page OCR result whose marker split yields fewer than
25 chunks gives rise to a `marker_splits_failed_pages` entry carrying its
page number, source image name and split count, and the debug trace copies
the stacked image (when it exists on disk), the raw OCR text and an
integrity JSON into the run's debug area; pages with 25 or more chunks
produce no entry; and the full, unfiltered `ocr_results` list is still
handed to record extraction. -/
theorem C7_low_split_integrity (splitsOf : String → Nat)
    (debugRoot cropsDir : String) (stackedExists : String → Bool)
    (ocr_results : List OcrItem) :
    (integrityLoop splitsOf debugRoot cropsDir stackedExists
        ocr_results).low_split_pages =
      (ocr_results.filter (fun it => splitsOf it.ocr_text < min_expected_splits)).map
        (fun it => ⟨it.page_no, it.source_image, splitsOf it.ocr_text⟩) ∧
    (integrityLoop splitsOf debugRoot cropsDir stackedExists
        ocr_results).split_counts =
      ocr_results.map (fun it => splitsOf it.ocr_text) ∧
    (integrityLoop splitsOf debugRoot cropsDir stackedExists
        ocr_results).extraction_input = ocr_results ∧
    (∀ it ∈ ocr_results, splitsOf it.ocr_text < min_expected_splits →
      (⟨it.page_no, it.source_image, splitsOf it.ocr_text⟩ : PageDebug) ∈
        (integrityLoop splitsOf debugRoot cropsDir stackedExists
          ocr_results).low_split_pages ∧
      FsOp.write
          (debugRoot ++ "/" ++ it.source_image.replace "_stacked_ocr.txt" "" ++
            "_ocr.txt") it.ocr_text ∈
        (integrityLoop splitsOf debugRoot cropsDir stackedExists
          ocr_results).debug_ops ∧
      FsOp.write
          (debugRoot ++ "/" ++ it.source_image.replace "_stacked_ocr.txt" "" ++
            "_integrity.json")
          ("page_no=" ++ toString it.page_no ++ ";source_image=" ++
            it.source_image ++ ";marker_splits=" ++
            toString (splitsOf it.ocr_text)) ∈
        (integrityLoop splitsOf debugRoot cropsDir stackedExists
          ocr_results).debug_ops ∧
      (stackedExists
          (cropsDir ++ "/" ++ it.source_image.replace "_stacked_ocr.txt" "" ++
            "_stacked_crops.jpg") = true →
        FsOp.copy
            (cropsDir ++ "/" ++ it.source_image.replace "_stacked_ocr.txt" "" ++
              "_stacked_crops.jpg")
            (debugRoot ++ "/" ++ it.source_image.replace "_stacked_ocr.txt" "" ++
              "_stacked_crops.jpg") ∈
          (integrityLoop splitsOf debugRoot cropsDir stackedExists
            ocr_results).debug_ops)) ∧
    (∀ e ∈ (integrityLoop splitsOf debugRoot cropsDir stackedExists
        ocr_results).low_split_pages,
      e.marker_splits < min_expected_splits ∧
      ∃ it ∈ ocr_results, splitsOf it.ocr_text < min_expected_splits ∧
        e = ⟨it.page_no, it.source_image, splitsOf it.ocr_text⟩) := by
  have hgo := integrityLoop_go splitsOf debugRoot cropsDir stackedExists
    ocr_results ⟨[], [], [], ocr_results⟩
  have hloop : integrityLoop splitsOf debugRoot cropsDir stackedExists
      ocr_results =
      { split_counts := ocr_results.map (fun it => splitsOf it.ocr_text)
        low_split_pages :=
          (ocr_results.filter
            (fun it => splitsOf it.ocr_text < min_expected_splits)).map
            (fun it => ⟨it.page_no, it.source_image, splitsOf it.ocr_text⟩)
        debug_ops :=
          (ocr_results.filter
            (fun it => splitsOf it.ocr_text < min_expected_splits)).flatMap
            (fun it => debugOpsFor debugRoot cropsDir stackedExists it
              (splitsOf it.ocr_text))
        extraction_input := ocr_results } := by
    unfold integrityLoop
    rw [hgo]
    simp
  rw [hloop]
  refine ⟨rfl, rfl, rfl, ?_, ?_⟩
  · intro it hit hlow
    have hmemf : it ∈ ocr_results.filter
        (fun it => splitsOf it.ocr_text < min_expected_splits) :=
      List.mem_filter.mpr ⟨hit, by simpa using hlow⟩
    refine ⟨List.mem_map.mpr ⟨it, hmemf, rfl⟩, ?_, ?_, ?_⟩
    · exact List.mem_flatMap.mpr ⟨it, hmemf, by simp [debugOpsFor]⟩
    · exact List.mem_flatMap.mpr ⟨it, hmemf, by simp [debugOpsFor]⟩
    · intro hex
      exact List.mem_flatMap.mpr ⟨it, hmemf, by simp [debugOpsFor, hex]⟩
  · intro e he
    obtain ⟨it, hit, rfl⟩ := List.mem_map.mp he
    have hf := List.mem_filter.mp hit
    refine ⟨by simpa using hf.2, it, hf.1, by simpa using hf.2, rfl⟩

/-- Witness for C7 at a concrete low-split page: an OCR text that splits
into 3 chunks (< 25) yields the corresponding failed-pages entry and a debug
write of the raw OCR text. -/
theorem C7_witness :
    (⟨1, "doc_page_01_stacked_ocr.txt", 3⟩ : PageDebug) ∈
      (integrityLoop (fun s => s.data.length) "runs/r/debug/doc" "crops/doc"
        (fun _ => true)
        [⟨"doc_page_01_stacked_ocr.txt", 1, "abc"⟩]).low_split_pages ∧
    FsOp.write
        ("runs/r/debug/doc" ++ "/" ++
          ("doc_page_01_stacked_ocr.txt".replace "_stacked_ocr.txt" "") ++
          "_ocr.txt") "abc" ∈
      (integrityLoop (fun s => s.data.length) "runs/r/debug/doc" "crops/doc"
        (fun _ => true)
        [⟨"doc_page_01_stacked_ocr.txt", 1, "abc"⟩]).debug_ops := by
  have h := C7_low_split_integrity (fun s => s.data.length) "runs/r/debug/doc"
    "crops/doc" (fun _ => true) [⟨"doc_page_01_stacked_ocr.txt", 1, "abc"⟩]
  have h1 := h.2.2.2.1 ⟨"doc_page_01_stacked_ocr.txt", 1, "abc"⟩ (by decide)
    (by decide)
  exact ⟨h1.1, h1.2.1⟩

/-! ## Missing language packs (C2) -/

/-- C2 fails as stated: on a run over two documents where the first (Tamil)
document's `tam` pack is missing from the installed set, the run does not
abort before document processing — the missing language data is recorded as
that document's per-document failure and the run continues, completing the
second (English) document. -/
theorem C2_counterexample :
    missingLangs ["A-TAM-1_page_01_stacked_crops.jpg"] ["eng"] = ["tam"] ∧
    runPipeline ["eng"]
        [⟨"A-TAM-1", ["A-TAM-1_page_01_stacked_crops.jpg"]⟩,
         ⟨"B-ENG-1", ["B-ENG-1_page_01_stacked_crops.jpg"]⟩] =
      [("A-TAM-1", "failed", []),
       ("B-ENG-1", "completed", ["B-ENG-1_page_01_stacked_crops.jpg"])] := by
  decide

/-- C2 amended: the language-pack check runs inside the per-document OCR
stage, after job enumeration and before any OCR job executes; a missing
required pack raises an error that the driver records as that document's
`failed` status (with no OCR output produced for it), and the run continues
with the remaining documents; every document whose required packs are all
installed is still processed to completion. Only a missing OCR engine
aborts the whole run up front. -/
theorem C2_amended_missing_langpack (installed : List String)
    (docs : List DocJob) :
    (runPipeline installed docs).length = docs.length ∧
    (∀ d ∈ docs, missingLangs d.image_files installed ≠ [] →
      (d.pdf_stem, ("failed" : String), ([] : List String)) ∈
        runPipeline installed docs) ∧
    (∀ d ∈ docs, missingLangs d.image_files installed = [] →
      (d.pdf_stem, ("completed" : String), d.image_files) ∈
        runPipeline installed docs) ∧
    (∀ d, missingLangs d.image_files installed ≠ [] →
      ∃ e, ocr_images_for_pdf installed d = Except.error e) := by
  refine ⟨by simp [runPipeline], ?_, ?_, ?_⟩
  · intro d hd hmiss
    have hne : (missingLangs d.image_files installed).isEmpty = false := by
      cases hfe : missingLangs d.image_files installed with
      | nil => exact absurd hfe hmiss
      | cons a l => rfl
    refine List.mem_map.mpr ⟨d, hd, ?_⟩
    simp [processDoc, ocr_images_for_pdf, ocrLanguageCheck, hne]
  · intro d hd hmiss
    refine List.mem_map.mpr ⟨d, hd, ?_⟩
    simp [processDoc, ocr_images_for_pdf, ocrLanguageCheck, hmiss]
  · intro d hmiss
    have hne : (missingLangs d.image_files installed).isEmpty = false := by
      cases hfe : missingLangs d.image_files installed with
      | nil => exact absurd hfe hmiss
      | cons a l => rfl
    exact ⟨"Tesseract language data missing: " ++
        String.intercalate ", " (missingLangs d.image_files installed) ++
        ". Install the missing languages or place the traineddata files into tessdata.",
      by simp [ocr_images_for_pdf, ocrLanguageCheck, hne]⟩

/-- Witness for C2's amended claim at the concrete two-document run. -/
theorem C2_amended_witness :
    ("A-TAM-1", ("failed" : String), ([] : List String)) ∈
      runPipeline ["eng"]
        [⟨"A-TAM-1", ["A-TAM-1_page_01_stacked_crops.jpg"]⟩,
         ⟨"B-ENG-1", ["B-ENG-1_page_01_stacked_crops.jpg"]⟩] ∧
    ("B-ENG-1", ("completed" : String),
        ["B-ENG-1_page_01_stacked_crops.jpg"]) ∈
      runPipeline ["eng"]
        [⟨"A-TAM-1", ["A-TAM-1_page_01_stacked_crops.jpg"]⟩,
         ⟨"B-ENG-1", ["B-ENG-1_page_01_stacked_crops.jpg"]⟩] := by
  have h := C2_amended_missing_langpack ["eng"]
    [⟨"A-TAM-1", ["A-TAM-1_page_01_stacked_crops.jpg"]⟩,
     ⟨"B-ENG-1", ["B-ENG-1_page_01_stacked_crops.jpg"]⟩]
  exact ⟨h.2.1 ⟨"A-TAM-1", ["A-TAM-1_page_01_stacked_crops.jpg"]⟩ (by decide)
      (by decide),
    h.2.2.1 ⟨"B-ENG-1", ["B-ENG-1_page_01_stacked_crops.jpg"]⟩ (by decide)
      (by decide)⟩

/-! ## Output column order (C9) -/

theorem mem_allFieldnames (records : List (List String)) (k : String) :
    k ∈ allFieldnames records ↔ ∃ r ∈ records, k ∈ r := by
  simp [allFieldnames]

theorem nodup_allFieldnames (records : List (List String)) :
    (allFieldnames records).Nodup := List.nodup_dedup _

/-- C9: the output columns are the fixed preferred columns that occur in
some record, in the fixed preferred order, followed by all remaining
occurring keys in alphabetical order without duplicates; the internal
bookkeeping keys (source_image, ocr_text, doc_id, page_no, voter_no) never
appear; and every emitted column occurs in some record. -/
theorem C9_output_column_order (records : List (List String)) :
    (∃ tail,
      fieldnames_for_records records =
        preferred_order.filter (fun f => decide (∃ r ∈ records, f ∈ r)) ++ tail ∧
      List.Sorted (fun a b : String => a ≤ b) tail ∧
      tail.Nodup ∧
      (∀ k, k ∈ tail ↔ ((∃ r ∈ records, k ∈ r) ∧ k ∉ preferred_order ∧
        k ∉ filtered_columns))) ∧
    (∀ k ∈ filtered_columns, k ∉ fieldnames_for_records records) ∧
    (∀ k ∈ fieldnames_for_records records, ∃ r ∈ records, k ∈ r) := by
  have hsorted := List.sorted_insertionSort (fun a b : String => a ≤ b)
    (allFieldnames records)
  have hperm := List.perm_insertionSort (fun a b : String => a ≤ b)
    (allFieldnames records)
  have hmemsort : ∀ k : String,
      k ∈ List.insertionSort (fun a b : String => a ≤ b) (allFieldnames records) ↔
        ∃ r ∈ records, k ∈ r := by
    intro k
    rw [hperm.mem_iff]
    exact mem_allFieldnames records k
  have hpred : ∀ f ∈ preferred_order,
      (decide (f ∈ allFieldnames records)) =
        (decide (∃ r ∈ records, f ∈ r)) := by
    intro f _
    exact decide_eq_decide.mpr (mem_allFieldnames records f)
  have heq : fieldnames_for_records records =
      preferred_order.filter (fun f => decide (∃ r ∈ records, f ∈ r)) ++
        (List.insertionSort (fun a b : String => a ≤ b)
            (allFieldnames records)).filter
          (fun f => decide (f ∉ preferred_order) &&
            decide (f ∉ filtered_columns)) := by
    unfold fieldnames_for_records
    dsimp only
    rw [List.filter_congr hpred]
  have htailmem : ∀ k : String,
      k ∈ (List.insertionSort (fun a b : String => a ≤ b)
          (allFieldnames records)).filter
        (fun f => decide (f ∉ preferred_order) &&
          decide (f ∉ filtered_columns)) ↔
        ((∃ r ∈ records, k ∈ r) ∧ k ∉ preferred_order ∧
          k ∉ filtered_columns) := by
    intro k
    rw [List.mem_filter]
    rw [hmemsort k]
    simp
  refine ⟨⟨_, heq, hsorted.filter _, (hperm.nodup_iff.mpr
      (nodup_allFieldnames records)).filter _, htailmem⟩, ?_, ?_⟩
  · intro k hk
    have hknp : k ∉ preferred_order := by
      simp only [filtered_columns, List.mem_cons, List.not_mem_nil, or_false] at hk
      rcases hk with rfl | rfl | rfl | rfl | rfl <;> decide
    rw [heq]
    intro hmem
    rcases List.mem_append.mp hmem with h1 | h2
    · exact hknp (List.mem_of_mem_filter h1)
    · exact ((htailmem k).mp h2).2.2 hk
  · intro k hk
    rw [heq] at hk
    rcases List.mem_append.mp hk with h1 | h2
    · have := List.of_mem_filter h1
      simpa using this
    · exact ((htailmem k).mp h2).1

/-- Witness for C9 at a concrete record list: `serial_no`, `name`, `age`
are kept in preferred order, extra keys are appended alphabetically, and
the bookkeeping key `doc_id` is dropped. -/
theorem C9_witness :
    "doc_id" ∉ fieldnames_for_records
      [["name", "doc_id", "zeta", "age"], ["beta", "serial_no"]] ∧
    (∃ r ∈ [["name", "doc_id", "zeta", "age"], ["beta", "serial_no"]],
      "zeta" ∈ r) := by
  have h := C9_output_column_order
    [["name", "doc_id", "zeta", "age"], ["beta", "serial_no"]]
  refine ⟨h.2.1 "doc_id" (by decide), ?_⟩
  obtain ⟨tail, -, -, -, htail⟩ := h.1
  exact ((htail "zeta").mp (by
    rw [(htail "zeta")]
    refine ⟨⟨["name", "doc_id", "zeta", "age"], by decide, by decide⟩,
      by decide, by decide⟩)).1

/-! ## Serial-number assignment (C5) -/

theorem mem_foldl_docKeys (l : List RecIn) (ks : List String) (x : String) :
    x ∈ l.foldl (fun ks r => if r.doc_id ∈ ks then ks else ks ++ [r.doc_id]) ks ↔
      x ∈ ks ∨ x ∈ l.map (fun r => r.doc_id) := by
  induction l generalizing ks with
  | nil => simp
  | cons r rs ih =>
    by_cases h : r.doc_id ∈ ks
    · rw [List.foldl_cons, if_pos h, ih]
      simp only [List.map_cons, List.mem_cons]
      constructor
      · rintro (hx | hx)
        · exact Or.inl hx
        · exact Or.inr (Or.inr hx)
      · rintro (hx | hx | hx)
        · exact Or.inl hx
        · exact Or.inl (hx ▸ h)
        · exact Or.inr hx
    · rw [List.foldl_cons, if_neg h, ih]
      simp only [List.mem_append, List.mem_singleton, List.map_cons,
        List.mem_cons]
      tauto

theorem mem_docKeys (l : List RecIn) (x : String) :
    x ∈ docKeys l ↔ x ∈ l.map (fun r => r.doc_id) := by
  unfold docKeys
  rw [mem_foldl_docKeys]
  simp

theorem nodup_foldl_docKeys (l : List RecIn) (ks : List String) (h : ks.Nodup) :
    (l.foldl (fun ks r => if r.doc_id ∈ ks then ks else ks ++ [r.doc_id])
      ks).Nodup := by
  induction l generalizing ks with
  | nil => exact h
  | cons r rs ih =>
    by_cases hm : r.doc_id ∈ ks
    · rw [List.foldl_cons, if_pos hm]
      exact ih _ h
    · rw [List.foldl_cons, if_neg hm]
      exact ih _ (by simp [List.nodup_append, h, hm])

theorem nodup_docKeys (l : List RecIn) : (docKeys l).Nodup :=
  nodup_foldl_docKeys l [] (by simp)

theorem mem_enumFrom_le {α : Type} (n : Nat) (l : List α) (p : Nat × α)
    (h : p ∈ List.enumFrom n l) : n ≤ p.1 ∧ p.2 ∈ l := by
  induction l generalizing n with
  | nil => simp [List.enumFrom] at h
  | cons x xs ih =>
    rw [List.enumFrom] at h
    rcases List.mem_cons.mp h with h | h
    · subst h
      exact ⟨Nat.le_refl _, List.mem_cons_self _ _⟩
    · obtain ⟨h1, h2⟩ := ih (n + 1) h
      exact ⟨by omega, List.mem_cons_of_mem _ h2⟩

theorem mem_numberSerials (vs : List RecIn) (r : RecOut)
    (h : r ∈ numberSerials vs) :
    1 ≤ r.serial_no ∧ (⟨r.doc_id, r.page_no⟩ : RecIn) ∈ vs := by
  unfold numberSerials at h
  obtain ⟨p, hp, rfl⟩ := List.mem_map.mp h
  obtain ⟨h1, h2⟩ := mem_enumFrom_le 1 vs p hp
  exact ⟨h1, h2⟩

theorem doc_of_mem_group (l : List RecIn) (k : String) (r : RecOut)
    (h : r ∈ numberSerials (List.insertionSort lePage (groupOf l k))) :
    r.doc_id = k := by
  have h2 := (mem_numberSerials _ r h).2
  have h3 : (⟨r.doc_id, r.page_no⟩ : RecIn) ∈ groupOf l k :=
    (List.perm_insertionSort lePage _).mem_iff.mp h2
  have h4 := List.mem_filter.mp h3
  simpa using h4.2

theorem map_serial_numberSerials_go (n : Nat) (ws : List RecIn) :
    ((List.enumFrom n ws).map
        (fun p => (⟨p.2.doc_id, p.2.page_no, p.1⟩ : RecOut))).map
      (fun r => r.serial_no) = List.range' n ws.length := by
  induction ws generalizing n with
  | nil => rfl
  | cons x xs ih => simp [List.enumFrom, List.range'_succ, ih]

theorem map_serial_numberSerials (vs : List RecIn) :
    (numberSerials vs).map (fun r => r.serial_no) =
      List.range' 1 vs.length :=
  map_serial_numberSerials_go 1 vs

theorem filter_flatten_groups_aux (G : String → List RecOut)
    (hG : ∀ k r, r ∈ G k → r.doc_id = k) (d : String) :
    ∀ keys : List String, keys.Nodup →
      ((keys.map G).flatten).filter (fun r => decide (r.doc_id = d)) =
        if d ∈ keys then G d else [] := by
  intro keys
  induction keys with
  | nil => simp
  | cons k ks ih =>
    intro hnd
    obtain ⟨hk, hks⟩ := List.nodup_cons.mp hnd
    rw [List.map_cons, List.flatten_cons, List.filter_append, ih hks]
    by_cases hdk : d = k
    · subst hdk
      have h1 : (G d).filter (fun r => decide (r.doc_id = d)) = G d :=
        List.filter_eq_self.mpr (fun r hr => by simp [hG d r hr])
      rw [h1, if_neg hk, if_pos (List.mem_cons_self d ks), List.append_nil]
    · have h1 : (G k).filter (fun r => decide (r.doc_id = d)) = [] :=
        List.filter_eq_nil_iff.mpr (fun r hr => by
          simp only [hG k r hr, decide_eq_true_eq]
          exact fun h => hdk h.symm)
      rw [h1, List.nil_append]
      by_cases hdks : d ∈ ks
      · rw [if_pos hdks, if_pos (List.mem_cons_of_mem _ hdks)]
      · rw [if_neg hdks, if_neg (by simp [hdk, hdks])]

theorem assign_pre_filter (l : List RecIn) (d : String) :
    ((((docKeys l).map
        (fun k => numberSerials
          (List.insertionSort lePage (groupOf l k)))).flatten).filter
      (fun r => decide (r.doc_id = d))) =
      if d ∈ docKeys l then
        numberSerials (List.insertionSort lePage (groupOf l d))
      else [] :=
  filter_flatten_groups_aux _ (fun k r hr => doc_of_mem_group l k r hr) d
    (docKeys l) (nodup_docKeys l)

theorem groupOf_eq_nil_of_not_mem (l : List RecIn) (d : String)
    (hd : d ∉ docKeys l) : groupOf l d = [] := by
  rw [mem_docKeys] at hd
  refine List.filter_eq_nil_iff.mpr (fun r hr => ?_)
  simp only [decide_eq_true_eq]
  intro hdoc
  exact hd (List.mem_map.mpr ⟨r, hr, hdoc⟩)

theorem serials_perm (l : List RecIn) (d : String) :
    (((assign_serial_numbers l).filter (fun r => decide (r.doc_id = d))).map
        (fun r => r.serial_no)).Perm
      (List.range' 1 (groupOf l d).length) := by
  unfold assign_serial_numbers
  have hp := (List.perm_insertionSort leDocSerial
      (((docKeys l).map (fun k => numberSerials
        (List.insertionSort lePage (groupOf l k)))).flatten)).filter
    (fun r => decide (r.doc_id = d))
  have hmap := hp.map (fun r : RecOut => r.serial_no)
  rw [assign_pre_filter l d] at hmap
  by_cases hd : d ∈ docKeys l
  · rw [if_pos hd, map_serial_numberSerials,
      (List.perm_insertionSort lePage (groupOf l d)).length_eq] at hmap
    exact hmap
  · rw [if_neg hd] at hmap
    rw [groupOf_eq_nil_of_not_mem l d hd]
    simpa using hmap

theorem mem_assign_iff (l : List RecIn) (r : RecOut) :
    r ∈ assign_serial_numbers l ↔
      ∃ k ∈ docKeys l,
        r ∈ numberSerials (List.insertionSort lePage (groupOf l k)) := by
  unfold assign_serial_numbers
  rw [(List.perm_insertionSort leDocSerial _).mem_iff]
  simp

theorem pairwise_enumFrom_mk (ws : List RecIn) (h : List.Pairwise lePage ws) :
    ∀ n, List.Pairwise
      (fun a b : RecOut => a.page_no ≤ b.page_no ∧ a.serial_no < b.serial_no)
      ((List.enumFrom n ws).map
        (fun p => (⟨p.2.doc_id, p.2.page_no, p.1⟩ : RecOut))) := by
  induction ws with
  | nil =>
    intro n
    simp [List.enumFrom]
  | cons x xs ih =>
    intro n
    rw [List.pairwise_cons] at h
    rw [List.enumFrom, List.map_cons]
    refine List.Pairwise.cons ?_ (ih h.2 (n + 1))
    intro b hb
    obtain ⟨p, hp, rfl⟩ := List.mem_map.mp hb
    obtain ⟨h1, h2⟩ := mem_enumFrom_le (n + 1) xs p hp
    refine ⟨h.1 p.2 h2, ?_⟩
    show n < p.1
    omega

theorem pairwise_numberSerials (g : List RecIn) :
    List.Pairwise
      (fun a b : RecOut => a.page_no ≤ b.page_no ∧ a.serial_no < b.serial_no)
      (numberSerials (List.insertionSort lePage g)) :=
  pairwise_enumFrom_mk _ (List.sorted_insertionSort lePage g) 1

theorem serial_mono_in_group (g : List RecIn) (r1 r2 : RecOut)
    (h1 : r1 ∈ numberSerials (List.insertionSort lePage g))
    (h2 : r2 ∈ numberSerials (List.insertionSort lePage g))
    (hpage : r1.page_no < r2.page_no) : r1.serial_no < r2.serial_no := by
  have hpw := pairwise_numberSerials g
  rw [List.pairwise_iff_getElem] at hpw
  obtain ⟨i, hi, hri⟩ := List.mem_iff_getElem.mp h1
  obtain ⟨j, hj, hrj⟩ := List.mem_iff_getElem.mp h2
  rcases Nat.lt_trichotomy i j with hij | hij | hij
  · have := hpw i j hi hj hij
    rw [hri, hrj] at this
    exact this.2
  · subst hij
    rw [hri] at hrj
    rw [hrj] at hpage
    exact absurd hpage (lt_irrefl _)
  · have := hpw j i hj hi hij
    rw [hri, hrj] at this
    omega

theorem serial_increases_with_page (l : List RecIn) (r1 r2 : RecOut)
    (m1 : r1 ∈ assign_serial_numbers l) (m2 : r2 ∈ assign_serial_numbers l)
    (hdoc : r1.doc_id = r2.doc_id) (hpage : r1.page_no < r2.page_no) :
    r1.serial_no < r2.serial_no := by
  obtain ⟨k1, hk1, hg1⟩ := (mem_assign_iff l r1).mp m1
  obtain ⟨k2, hk2, hg2⟩ := (mem_assign_iff l r2).mp m2
  have e1 := doc_of_mem_group l k1 r1 hg1
  have e2 := doc_of_mem_group l k2 r2 hg2
  have hk : k1 = k2 := by rw [← e1, ← e2, hdoc]
  subst hk
  exact serial_mono_in_group _ r1 r2 hg1 hg2 hpage

/-- C5: after serial-number assignment, for every document `d` the serial
numbers carried by its records form exactly `{1, …, M}` where `M` is the
number of that document's records (dense, 1-based, no gaps, no duplicates);
`(doc_id, serial_no)` is unique; serial numbers increase with `page_no`
within each document; and the returned list is sorted by
`(doc_id, serial_no)`. -/
theorem C5_serial_number_assignment (l : List RecIn) (d : String) :
    (((assign_serial_numbers l).filter (fun r => decide (r.doc_id = d))).map
        (fun r => r.serial_no)).Perm
      (List.range' 1 (groupOf l d).length) ∧
    (((assign_serial_numbers l).filter (fun r => decide (r.doc_id = d))).map
        (fun r => r.serial_no)).Nodup ∧
    (∀ r1 ∈ assign_serial_numbers l, ∀ r2 ∈ assign_serial_numbers l,
      r1.doc_id = r2.doc_id → r1.page_no < r2.page_no →
        r1.serial_no < r2.serial_no) ∧
    List.Sorted leDocSerial (assign_serial_numbers l) := by
  refine ⟨serials_perm l d, ?_,
    fun r1 m1 r2 m2 hdoc hpage =>
      serial_increases_with_page l r1 r2 m1 m2 hdoc hpage,
    List.sorted_insertionSort leDocSerial _⟩
  exact (serials_perm l d).nodup_iff.mpr (List.nodup_range' 1 _)

/-- Witness for C5 at a concrete input: two documents with interleaved pages
receive dense per-document serial numbers, and page order implies serial
order within a document. -/
theorem C5_witness :
    (((assign_serial_numbers [⟨"b", 2⟩, ⟨"a", 5⟩, ⟨"b", 1⟩, ⟨"a", 3⟩]).filter
        (fun r => decide (r.doc_id = "b"))).map (fun r => r.serial_no)).Perm
      (List.range' 1 2) ∧
    (⟨"a", 3, 1⟩ : RecOut).serial_no < (⟨"a", 5, 2⟩ : RecOut).serial_no := by
  have h := C5_serial_number_assignment [⟨"b", 2⟩, ⟨"a", 5⟩, ⟨"b", 1⟩, ⟨"a", 3⟩] "b"
  refine ⟨?_, ?_⟩
  · have := h.1
    simpa [groupOf] using this
  · exact h.2.2.1 ⟨"a", 3, 1⟩ (by decide) ⟨"a", 5, 2⟩ (by decide) rfl
      (by decide)

end VoterShield
